import Mathlib

/-!
Shallow embedding of the domain-adaptation training callbacks of
`skada/deep/callbacks.py` (`ComputeSourceCentroids.on_epoch_begin` and
`ComputeMemoryBank.on_batch_end`), together with theorems settling the
stated properties of the two callbacks.

Tensors are modelled as lists of real-valued rows; the network's feature
extractor and forward pass are abstract row-wise functions, matching the
spec's external-collaborator boundary for the module.
-/

set_option linter.unusedVariables false

namespace Skada

/-- A feature / probability vector: one row of a 2-D tensor. -/
abbrev Vec := List ℝ

/-- One sample of a skorch batch / dataset: the raw input `x`, the
`sample_domain` field (nonnegative = source, negative = target), the class
label `y`, and the stable `sample_idx`. -/
structure Row (α : Type) where
  x : α
  sample_domain : ℤ
  y : ℕ
  sample_idx : ℕ
  deriving DecidableEq

variable {α : Type}

/-- Sum of squares of the entries of a row. -/
def sumSq (v : Vec) : ℝ := (v.map (fun a => a * a)).sum

/-- Euclidean (L2) norm of a row. -/
noncomputable def norm2 (v : Vec) : ℝ := Real.sqrt (sumSq v)

/-- `torch.nn.functional.normalize(v, p=2, dim=1)` on one row: divide by the L2
norm; a zero-norm row is returned unchanged (torch divides it by `eps`, which
also yields the zero row). -/
noncomputable def l2normalize (v : Vec) : Vec :=
  if norm2 v = 0 then v else v.map (fun a => a / norm2 v)

/-- Elementwise sum of two equally shaped rows. -/
def vecAdd (u v : Vec) : Vec := List.zipWith (fun a b => a + b) u v

/-- `t.sum(dim=0)`: columnwise sum of a stack of equally shaped rows. -/
def vecSum : List Vec → Vec
  | [] => []
  | [v] => v
  | v :: w :: vs => vecAdd v (vecSum (w :: vs))

/-- Multiply every entry of a row by a scalar. -/
def vecScale (a : ℝ) (v : Vec) : Vec := v.map (fun b => a * b)

/-- `torch.nn.functional.softmax(z, dim=1)` on one row. -/
noncomputable def softmaxRow (z : Vec) : Vec :=
  z.map (fun a => Real.exp a / (z.map Real.exp).sum)

/-! ## `ComputeSourceCentroids.on_epoch_begin` (callbacks.py lines 20-75) -/

/-- Line 38: `X_s = X["X"][X["sample_domain"] >= 0]` — the source rows. -/
def sourceRows (ds : List (Row α)) : List (Row α) :=
  ds.filter (fun r => decide (0 ≤ r.sample_domain))

/-- Line 41: `X_t = X["X"][X["sample_domain"] < 0]` — the target rows. -/
def targetRows (ds : List (Row α)) : List (Row α) :=
  ds.filter (fun r => decide (r.sample_domain < 0))

/-- Line 53: `n_classes = len(y_s.unique())` — the number of distinct labels
among the source rows. -/
def nClasses (ds : List (Row α)) : ℕ :=
  ((sourceRows ds).map Row.y).dedup.length

/-- The number of distinct labels in the whole training set. Not computed by the
code; used to state the spec's "number of classes" for a training set. -/
def datasetClasses (ds : List (Row α)) : ℕ := (ds.map Row.y).dedup.length

/-- Line 57: `mask = y_s == c` — the source rows of class `c`. -/
def classRows (ds : List (Row α)) (c : ℕ) : List (Row α) :=
  (sourceRows ds).filter (fun r => decide (r.y = c))

/-- Lines 59-61: the centroid of class `c` is the columnwise sum of the
L2-normalized features of the class's source rows. `f` is the row-wise action
of `net.predict_features`. -/
noncomputable def centroidOf (f : α → Vec) (ds : List (Row α)) (c : ℕ) : Vec :=
  vecSum ((classRows ds c).map (fun r => l2normalize (f r.x)))

/-- Lines 56-62: the classes that obtain a centroid — `c` ranging over
`range(n_classes)` with `mask.sum() > 0`. -/
def centroidClasses (ds : List (Row α)) : List ℕ :=
  (List.range (nClasses ds)).filter (fun c => decide (0 < (classRows ds c).length))

/-- Lines 54-64: the list `source_centroids` accumulated by the loop and then
stacked. -/
noncomputable def source_centroids (f : α → Vec) (ds : List (Row α)) : List Vec :=
  (centroidClasses ds).map (centroidOf f ds)

/-- The arguments of the `SphericalKMeans(...)`/`fit` invocation of lines
67-73. `SphericalKMeans` itself lives in `skada.deep.utils`, outside the
excerpted core; the properties below are about what it is invoked with. -/
structure KMeansCall where
  n_clusters : ℕ
  initial_centroids : List Vec
  data : List Vec

/-- `ComputeSourceCentroids.on_epoch_begin`: the callback's published result,
namely the clustering invocation it performs on the target features, seeded
with the per-class source centroids. -/
noncomputable def on_epoch_begin (f : α → Vec) (ds : List (Row α)) : KMeansCall :=
  { n_clusters := nClasses ds
  , initial_centroids := source_centroids f ds
  , data := (targetRows ds).map (fun r => f r.x) }

/-- The spec's wording for a class centroid ("group source features by label,
normalize each group's features, and sum"), stated directly over the dataset;
compared against `centroidOf`, the centroid the code computes. -/
noncomputable def specClassCentroid (f : α → Vec) (ds : List (Row α)) (c : ℕ) : Vec :=
  vecSum ((ds.filter (fun r => decide (0 ≤ r.sample_domain) && decide (r.y = c))).map
    (fun r => l2normalize (f r.x)))

/-! ## `ComputeMemoryBank.on_batch_end` (callbacks.py lines 85-123) -/

/-- The `net.criterion__adapt_criterion` state the callback mutates: the two
parallel per-sample memory arrays. -/
structure AdaptCriterion where
  memory_features : List Vec
  memory_outputs : List Vec

/-- The part of the net state the batch-end hook touches: the adaptation
criterion and whether `net.module_` is in training mode. -/
structure NetState where
  criterion__adapt_criterion : AdaptCriterion
  moduleTraining : Bool

/-- Line 102: the target rows of the batch. -/
def batchTarget (b : List (Row α)) : List (Row α) :=
  b.filter (fun r => decide (r.sample_domain < 0))

/-- Line 103: `batch_idx = X["sample_idx"][X["sample_domain"] < 0]`. -/
def batchIdx (b : List (Row α)) : List ℕ := (batchTarget b).map Row.sample_idx

/-- Lines 107-108: the L2-normalized target features `features_t`; `featF` is
the features component of the row-wise module forward pass. -/
noncomputable def features_t (featF : α → Vec) (b : List (Row α)) : List Vec :=
  (batchTarget b).map (fun r => l2normalize (featF r.x))

/-- Line 109: `softmax_out = F.softmax(output_t, dim=1)`; `outF` is the output
component of the row-wise module forward pass. -/
noncomputable def softmax_out (outF : α → Vec) (b : List (Row α)) : List Vec :=
  (batchTarget b).map (fun r => softmaxRow (outF r.x))

/-- Elementwise square of every row of a stack (`t**2`). -/
def sqRows (m : List Vec) : List Vec := m.map (fun row => row.map (fun a => a * a))

/-- Line 110: `outputs_target = softmax_out**2 / ((softmax_out**2).sum(dim=0))`
— every row of the squared softmax stack is divided elementwise by the
columnwise (batch-dimension) sums. -/
noncomputable def outputs_target (outF : α → Vec) (b : List (Row α)) : List Vec :=
  (sqRows (softmax_out outF b)).map
    (fun row => List.zipWith (fun a d => a / d) row (vecSum (sqRows (softmax_out outF b))))

/-- `mem[batch_idx]`: gather the addressed rows (out-of-range reads model as `[]`;
the code always indexes in range). -/
def gatherRows (mem : List Vec) (idx : List ℕ) : List Vec :=
  idx.map (fun i => mem.getD i [])

/-- Lines 112-115 / 117-120: the rows assigned into the memory. In the source,
`new_memory_features = (1.0 - self.momentum) * mem[batch_idx]` is a complete
statement; the following line `+self.momentum * features_t.clone()` is a
separate expression statement (a unary plus) whose value is discarded, so only
the `(1 - momentum) * old` term reaches the assignment, for the features and
the outputs alike. -/
def new_memory (momentum : ℝ) (mem : List Vec) (idx : List ℕ) : List Vec :=
  (gatherRows mem idx).map (vecScale (1 - momentum))

/-- `mem[idx] = vals`: torch row-scatter assignment, written sequentially so a
repeated index takes the last value. -/
def writeRows : List Vec → List ℕ → List Vec → List Vec
  | m, [], _ => m
  | m, _ :: _, [] => m
  | m, i :: is, v :: vs => writeRows (m.set i v) is vs

/-- `ComputeMemoryBank.on_batch_end` (lines 89-123). `outF`/`featF` stand for
the row-wise action of `net.module_(·, return_features=True)`. Line 105
(`net.module_.eval()`) puts the module in eval mode and nothing later restores
the previous mode. The computed `features_t` / `outputs_target` values are
dropped by the unary-plus statements (see `new_memory`), so the written rows
are `(1 - momentum) * old` and lines 122-123 scatter them back in place. -/
def on_batch_end (outF featF : α → Vec) (momentum : ℝ) (net : NetState)
    (b : List (Row α)) : NetState :=
  { criterion__adapt_criterion :=
    { memory_features :=
        writeRows net.criterion__adapt_criterion.memory_features (batchIdx b)
          (new_memory momentum net.criterion__adapt_criterion.memory_features (batchIdx b))
    , memory_outputs :=
        writeRows net.criterion__adapt_criterion.memory_outputs (batchIdx b)
          (new_memory momentum net.criterion__adapt_criterion.memory_outputs (batchIdx b)) }
  , moduleTraining := false }

/-! ## Helper lemmas -/

/-- Row-scatter assignment does not change rows whose index is not addressed. -/
theorem getD_writeRows_not_mem (m : List Vec) (idx : List ℕ) (vals : List Vec)
    (i : ℕ) (h : i ∉ idx) : (writeRows m idx vals).getD i [] = m.getD i [] := by
  induction idx generalizing m vals with
  | nil => simp [writeRows]
  | cons j js ih =>
    cases vals with
    | nil => simp [writeRows]
    | cons v vs =>
      rw [writeRows, ih]
      · simp only [List.getD_eq_getElem?_getD]
        rw [List.getElem?_set_ne]
        intro hji
        exact h (hji ▸ List.mem_cons_self j js)
      · intro hmem
        exact h (List.mem_cons_of_mem j hmem)

/-! ## Theorems about `ComputeMemoryBank.on_batch_end` -/

/-- C10: after every invocation of the batch-end hook the network module is in
eval mode, regardless of the mode it was in before the call; the hook switches
the module to eval and never restores the prior training/eval mode. -/
theorem module_left_in_eval_mode (outF featF : α → Vec) (momentum : ℝ)
    (net : NetState) (b : List (Row α)) :
    (on_batch_end outF featF momentum net b).moduleTraining = false := rfl

/-- C8: a batch containing zero target rows is a no-op on the memory bank —
both memory arrays are left unchanged row for row (and, being a total
function, the update raises no error). -/
theorem empty_target_batch_noop (outF featF : α → Vec) (momentum : ℝ)
    (net : NetState) (b : List (Row α)) (h : batchTarget b = []) :
    (on_batch_end outF featF momentum net b).criterion__adapt_criterion.memory_features
        = net.criterion__adapt_criterion.memory_features
      ∧ (on_batch_end outF featF momentum net b).criterion__adapt_criterion.memory_outputs
        = net.criterion__adapt_criterion.memory_outputs := by
  have hidx : batchIdx b = [] := by simp [batchIdx, h]
  constructor <;> simp [on_batch_end, hidx, writeRows]

/-- Witness for C8: a one-row batch whose only row is a source row. -/
theorem empty_target_batch_noop_witness :
    batchTarget [({ x := 0, sample_domain := 2, y := 1, sample_idx := 4 } : Row ℕ)] = []
      ∧ (on_batch_end (fun _ : ℕ => [(1 : ℝ)]) (fun _ => [(1 : ℝ)]) (7 / 10)
            ⟨⟨[[(1 : ℝ)]], [[(2 : ℝ)]]⟩, true⟩
            [{ x := 0, sample_domain := 2, y := 1, sample_idx := 4 }]
          ).criterion__adapt_criterion.memory_features = [[(1 : ℝ)]] :=
  ⟨by decide,
    (empty_target_batch_noop (fun _ : ℕ => [(1 : ℝ)]) (fun _ => [(1 : ℝ)]) (7 / 10)
      ⟨⟨[[(1 : ℝ)]], [[(2 : ℝ)]]⟩, true⟩
      [{ x := 0, sample_domain := 2, y := 1, sample_idx := 4 }] (by decide)).1⟩

/-- C6: the batch-end update mutates only the rows of `memory_features` /
`memory_outputs` whose sample index is a target-row index of the batch: a row
whose index is not in `batchIdx` keeps its pre-call value exactly, and every
index in `batchIdx` is the sample index of some batch row. -/
theorem memory_bank_frame (outF featF : α → Vec) (momentum : ℝ) (net : NetState)
    (b : List (Row α)) (i : ℕ) (h : i ∉ batchIdx b) :
    ((on_batch_end outF featF momentum net b).criterion__adapt_criterion.memory_features.getD i []
        = net.criterion__adapt_criterion.memory_features.getD i []
      ∧ (on_batch_end outF featF momentum net b).criterion__adapt_criterion.memory_outputs.getD i []
        = net.criterion__adapt_criterion.memory_outputs.getD i [])
      ∧ ∀ k ∈ batchIdx b, k ∈ b.map Row.sample_idx := by
  refine ⟨⟨getD_writeRows_not_mem _ _ _ _ h, getD_writeRows_not_mem _ _ _ _ h⟩, ?_⟩
  intro k hk
  simp only [batchIdx, batchTarget, List.mem_map] at hk
  obtain ⟨r, hr, hrk⟩ := hk
  exact List.mem_map.mpr ⟨r, List.mem_of_mem_filter hr, hrk⟩

/-- Witness for C6: a memory with two rows, a batch touching index 0 only,
queried at the untouched index 1. -/
theorem memory_bank_frame_witness :
    (1 : ℕ) ∉ batchIdx [({ x := 0, sample_domain := -1, y := 0, sample_idx := 0 } : Row ℕ)]
      ∧ (on_batch_end (fun _ : ℕ => [(1 : ℝ)]) (fun _ => [(1 : ℝ)]) (7 / 10)
            ⟨⟨[[(1 : ℝ)], [(5 : ℝ)]], [[(1 : ℝ)], [(6 : ℝ)]]⟩, true⟩
            [{ x := 0, sample_domain := -1, y := 0, sample_idx := 0 }]
          ).criterion__adapt_criterion.memory_features.getD 1 [] = [(5 : ℝ)] :=
  ⟨by decide, by
    have h := (memory_bank_frame (fun _ : ℕ => [(1 : ℝ)]) (fun _ => [(1 : ℝ)]) (7 / 10)
      ⟨⟨[[(1 : ℝ)], [(5 : ℝ)]], [[(1 : ℝ)], [(6 : ℝ)]]⟩, true⟩
      [{ x := 0, sample_domain := -1, y := 0, sample_idx := 0 }] 1 (by decide)).1.1
    exact h.trans rfl⟩

/-- C9: two batch-end invocations from the same memory state and momentum, on
batches with the same target-row sample indices, produce identical criterion
states even when the module functions and batch inputs differ; the written
rows are `(1 - momentum)` times the old rows and do not depend on the batch's
computed features or outputs. -/
theorem memory_update_independent_of_module (outF₁ featF₁ outF₂ featF₂ : α → Vec)
    (momentum : ℝ) (net : NetState) (b₁ b₂ : List (Row α))
    (h : batchIdx b₁ = batchIdx b₂) :
    (on_batch_end outF₁ featF₁ momentum net b₁).criterion__adapt_criterion
        = (on_batch_end outF₂ featF₂ momentum net b₂).criterion__adapt_criterion
      ∧ (on_batch_end outF₁ featF₁ momentum net b₁).criterion__adapt_criterion.memory_features
        = writeRows net.criterion__adapt_criterion.memory_features (batchIdx b₁)
            ((gatherRows net.criterion__adapt_criterion.memory_features (batchIdx b₁)).map
              (vecScale (1 - momentum))) :=
  ⟨by simp [on_batch_end, h], rfl⟩

/-- Witness for C9: two batches sharing target index 0 but with different raw
inputs, and module functions producing different outputs. -/
theorem memory_update_independent_of_module_witness :
    batchIdx [({ x := 0, sample_domain := -1, y := 0, sample_idx := 0 } : Row ℕ)]
        = batchIdx [({ x := 9, sample_domain := -3, y := 1, sample_idx := 0 } : Row ℕ)]
      ∧ (on_batch_end (fun _ : ℕ => [(0 : ℝ)]) (fun _ => [(0 : ℝ)]) (7 / 10)
            ⟨⟨[[(1 : ℝ)]], [[(1 : ℝ)]]⟩, true⟩
            [{ x := 0, sample_domain := -1, y := 0, sample_idx := 0 }]
          ).criterion__adapt_criterion
        = (on_batch_end (fun _ : ℕ => [(2 : ℝ)]) (fun _ => [(3 : ℝ)]) (7 / 10)
            ⟨⟨[[(1 : ℝ)]], [[(1 : ℝ)]]⟩, true⟩
            [{ x := 9, sample_domain := -3, y := 1, sample_idx := 0 }]
          ).criterion__adapt_criterion :=
  ⟨by decide,
    (memory_update_independent_of_module (fun _ : ℕ => [(0 : ℝ)]) (fun _ => [(0 : ℝ)])
      (fun _ => [(2 : ℝ)]) (fun _ => [(3 : ℝ)]) (7 / 10)
      ⟨⟨[[(1 : ℝ)]], [[(1 : ℝ)]]⟩, true⟩
      [{ x := 0, sample_domain := -1, y := 0, sample_idx := 0 }]
      [{ x := 9, sample_domain := -3, y := 1, sample_idx := 0 }] (by decide)).1⟩

/-- C1 (the code, evaluated at the claim's scenario): momentum `0.7`, one
memory row holding `v0 = [1]` in both arrays, a batch touching exactly that
row, and a module whose normalized feature row is `v1 = [1]`. The hook writes
`(1 - momentum) * v0 = [0.3]` into both arrays — not the claimed
`momentum * v1 + (1 - momentum) * v0 = [1]` — because the
`+self.momentum * ...` lines are discarded unary-plus statements; iterating
with constant `v1` therefore contracts the row towards `0`, not `v1`. -/
theorem memory_update_drops_new_value :
    features_t (fun _ : ℕ => [(1 : ℝ)])
        [({ x := 0, sample_domain := -1, y := 0, sample_idx := 0 } : Row ℕ)] = [[(1 : ℝ)]]
      ∧ (on_batch_end (fun _ : ℕ => [(1 : ℝ)]) (fun _ => [(1 : ℝ)]) (7 / 10)
            ⟨⟨[[(1 : ℝ)]], [[(1 : ℝ)]]⟩, true⟩
            [{ x := 0, sample_domain := -1, y := 0, sample_idx := 0 }]
          ).criterion__adapt_criterion.memory_features = [[(3 : ℝ) / 10]]
      ∧ (on_batch_end (fun _ : ℕ => [(1 : ℝ)]) (fun _ => [(1 : ℝ)]) (7 / 10)
            ⟨⟨[[(1 : ℝ)]], [[(1 : ℝ)]]⟩, true⟩
            [{ x := 0, sample_domain := -1, y := 0, sample_idx := 0 }]
          ).criterion__adapt_criterion.memory_outputs = [[(3 : ℝ) / 10]]
      ∧ (3 : ℝ) / 10 ≠ (7 / 10) * 1 + (1 - 7 / 10) * 1 := by
  refine ⟨?_, ?_, ?_, by norm_num⟩
  · norm_num [features_t, batchTarget, List.filter, l2normalize, norm2, sumSq]
  · norm_num [on_batch_end, batchIdx, batchTarget, List.filter, new_memory, gatherRows,
      vecScale, writeRows]
  · norm_num [on_batch_end, batchIdx, batchTarget, List.filter, new_memory, gatherRows,
      vecScale, writeRows]

/-- C7: source samples are never written into the memory bank or clustered and
target samples never contribute to a centroid, the domain test being the same
sign check in both callbacks: (i) the batch-end hook leaves every row whose
index is not a target-row index of the batch untouched; (ii) the clustered
data is exactly the feature list of the rows with negative domain; (iii) the
initial centroids (and with them every class centroid) are fully determined by
the source rows, so datasets agreeing on source rows get equal centroids; and
(iv) membership in the source/target subsets of either callback is decided by
`0 ≤ sample_domain` respectively its negation `sample_domain < 0`. -/
theorem domain_partition_invariant (f outF featF : α → Vec) (momentum : ℝ)
    (net : NetState) (ds ds₂ b : List (Row α)) (i : ℕ)
    (hsrc : sourceRows ds = sourceRows ds₂) (hi : i ∉ batchIdx b) :
    ((on_batch_end outF featF momentum net b).criterion__adapt_criterion.memory_features.getD i []
        = net.criterion__adapt_criterion.memory_features.getD i []
      ∧ (on_batch_end outF featF momentum net b).criterion__adapt_criterion.memory_outputs.getD i []
        = net.criterion__adapt_criterion.memory_outputs.getD i [])
      ∧ (on_epoch_begin f ds).data = (targetRows ds).map (fun r => f r.x)
      ∧ (on_epoch_begin f ds).initial_centroids = (on_epoch_begin f ds₂).initial_centroids
      ∧ ∀ r : Row α,
          (r ∈ sourceRows ds ↔ r ∈ ds ∧ 0 ≤ r.sample_domain)
          ∧ (r ∈ targetRows ds ↔ r ∈ ds ∧ r.sample_domain < 0)
          ∧ (r ∈ batchTarget b ↔ r ∈ b ∧ r.sample_domain < 0)
          ∧ (0 ≤ r.sample_domain ↔ ¬ r.sample_domain < 0) := by
  refine ⟨⟨getD_writeRows_not_mem _ _ _ _ hi, getD_writeRows_not_mem _ _ _ _ hi⟩, rfl, ?_, ?_⟩
  · have hclass : ∀ c, classRows ds c = classRows ds₂ c := fun c => by
      simp only [classRows, hsrc]
    have hcent : centroidOf f ds = centroidOf f ds₂ := funext fun c => by
      simp only [centroidOf, hclass]
    simp only [on_epoch_begin, source_centroids, centroidClasses, nClasses, hsrc, hcent, hclass]
  · intro r
    refine ⟨?_, ?_, ?_, ?_⟩
    · simp [sourceRows, List.mem_filter]
    · simp [targetRows, List.mem_filter]
    · simp [batchTarget, List.mem_filter]
    · omega

/-- Witness for C7: two datasets sharing their source row but with different
target rows, and a batch touching index 0 only, queried at index 3. -/
theorem domain_partition_invariant_witness :
    sourceRows [({ x := 0, sample_domain := 0, y := 0, sample_idx := 0 } : Row ℕ),
          { x := 1, sample_domain := -1, y := 1, sample_idx := 1 }]
        = sourceRows [({ x := 0, sample_domain := 0, y := 0, sample_idx := 0 } : Row ℕ),
          { x := 7, sample_domain := -2, y := 0, sample_idx := 2 }]
      ∧ (3 : ℕ) ∉ batchIdx [({ x := 2, sample_domain := -1, y := 0, sample_idx := 0 } : Row ℕ)]
      ∧ (on_epoch_begin (fun _ : ℕ => [(1 : ℝ)])
            [({ x := 0, sample_domain := 0, y := 0, sample_idx := 0 } : Row ℕ),
              { x := 1, sample_domain := -1, y := 1, sample_idx := 1 }]).initial_centroids
        = (on_epoch_begin (fun _ : ℕ => [(1 : ℝ)])
            [({ x := 0, sample_domain := 0, y := 0, sample_idx := 0 } : Row ℕ),
              { x := 7, sample_domain := -2, y := 0, sample_idx := 2 }]).initial_centroids :=
  ⟨by decide, by decide,
    (domain_partition_invariant (fun _ : ℕ => [(1 : ℝ)]) (fun _ => [(1 : ℝ)])
      (fun _ => [(1 : ℝ)]) (7 / 10) ⟨⟨[], []⟩, true⟩
      [({ x := 0, sample_domain := 0, y := 0, sample_idx := 0 } : Row ℕ),
        { x := 1, sample_domain := -1, y := 1, sample_idx := 1 }]
      [({ x := 0, sample_domain := 0, y := 0, sample_idx := 0 } : Row ℕ),
        { x := 7, sample_domain := -2, y := 0, sample_idx := 2 }]
      [{ x := 2, sample_domain := -1, y := 0, sample_idx := 0 }] 3
      (by decide) (by decide)).2.2.1⟩

/-! ## Theorems about `ComputeSourceCentroids.on_epoch_begin` -/

/-- The set of distinct labels of the source rows, as a finset. -/
theorem toFinset_source_labels (ds : List (Row α)) (s : Finset ℕ)
    (h : ∀ c : ℕ, c ∈ (sourceRows ds).map Row.y ↔ c ∈ s) :
    nClasses ds = s.card := by
  have : ((sourceRows ds).map Row.y).toFinset = s := by
    ext c
    rw [List.mem_toFinset]
    exact h c
  rw [nClasses, ← List.card_toFinset, this]

/-- A class whose label occurs among the source rows has a nonempty row list. -/
theorem classRows_ne_nil (ds : List (Row α)) (c : ℕ)
    (h : c ∈ (sourceRows ds).map Row.y) : 0 < (classRows ds c).length := by
  obtain ⟨r, hr, hrc⟩ := List.mem_map.mp h
  refine List.length_pos.mpr (List.ne_nil_of_mem (a := r) ?_)
  exact List.mem_filter.mpr ⟨hr, by simp [hrc]⟩

/-- C2 (counterexample to the claim as stated): a training set with three
classes 0, 1, 2 in which exactly class 0 has zero source samples. The code
takes `n_classes = 2` (the distinct source labels 1 and 2), loops over classes
0 and 1 only, and emits a single centroid (for class 1). The clusterer is
invoked with `k = 3 - 1 = 2` but with one initial centroid, not two, and class
2 — which has a source sample — obtains no centroid. -/
theorem centroid_count_counterexample :
    datasetClasses [({ x := 0, sample_domain := 0, y := 1, sample_idx := 0 } : Row ℕ),
          { x := 1, sample_domain := 0, y := 2, sample_idx := 1 },
          { x := 2, sample_domain := -1, y := 0, sample_idx := 2 }] = 3
      ∧ (classRows [({ x := 0, sample_domain := 0, y := 1, sample_idx := 0 } : Row ℕ),
          { x := 1, sample_domain := 0, y := 2, sample_idx := 1 },
          { x := 2, sample_domain := -1, y := 0, sample_idx := 2 }] 0).length = 0
      ∧ 0 < (classRows [({ x := 0, sample_domain := 0, y := 1, sample_idx := 0 } : Row ℕ),
          { x := 1, sample_domain := 0, y := 2, sample_idx := 1 },
          { x := 2, sample_domain := -1, y := 0, sample_idx := 2 }] 1).length
      ∧ 0 < (classRows [({ x := 0, sample_domain := 0, y := 1, sample_idx := 0 } : Row ℕ),
          { x := 1, sample_domain := 0, y := 2, sample_idx := 1 },
          { x := 2, sample_domain := -1, y := 0, sample_idx := 2 }] 2).length
      ∧ (on_epoch_begin (fun _ : ℕ => [(1 : ℝ)])
          [({ x := 0, sample_domain := 0, y := 1, sample_idx := 0 } : Row ℕ),
            { x := 1, sample_domain := 0, y := 2, sample_idx := 1 },
            { x := 2, sample_domain := -1, y := 0, sample_idx := 2 }]).n_clusters = 3 - 1
      ∧ (on_epoch_begin (fun _ : ℕ => [(1 : ℝ)])
          [({ x := 0, sample_domain := 0, y := 1, sample_idx := 0 } : Row ℕ),
            { x := 1, sample_domain := 0, y := 2, sample_idx := 1 },
            { x := 2, sample_domain := -1, y := 0, sample_idx := 2 }]).initial_centroids.length
          = 1
      ∧ (2 : ℕ) ∉ centroidClasses
          [({ x := 0, sample_domain := 0, y := 1, sample_idx := 0 } : Row ℕ),
            { x := 1, sample_domain := 0, y := 2, sample_idx := 1 },
            { x := 2, sample_domain := -1, y := 0, sample_idx := 2 }]
      ∧ (1 : ℕ) ≠ 3 - 1 := by
  refine ⟨by decide, by decide, by decide, by decide, by decide, ?_, by decide, by decide⟩
  simp only [on_epoch_begin, source_centroids, List.length_map]
  decide

/-- C2 (amended): if the class with zero source samples is the
highest-numbered class — the dataset's labels are exactly `0 .. N-1` and the
labels with at least one source sample are exactly `0 .. N-2` — then the
callback emits exactly `N-1` centroids, one for each source-present class and
none for class `N-1`, and invokes the clusterer with `k = N-1`. (When a
lower-numbered class is the empty one, the counterexample above shows the
highest class falls outside the looped range and fewer than `k` centroids are
emitted.) -/
theorem missing_top_class_centroids (f : α → Vec) (ds : List (Row α)) (N : ℕ)
    (hclasses : ∀ c : ℕ, c ∈ ds.map Row.y ↔ c < N)
    (hsrc : ∀ c : ℕ, c ∈ (sourceRows ds).map Row.y ↔ c < N - 1) :
    (on_epoch_begin f ds).n_clusters = N - 1
      ∧ (on_epoch_begin f ds).initial_centroids.length = N - 1
      ∧ centroidClasses ds = List.range (N - 1)
      ∧ (N - 1) ∉ centroidClasses ds := by
  have hn : nClasses ds = N - 1 := by
    rw [toFinset_source_labels ds (Finset.range (N - 1))
      (fun c => by rw [hsrc, Finset.mem_range]), Finset.card_range]
  have hcc : centroidClasses ds = List.range (N - 1) := by
    rw [centroidClasses, hn, List.filter_eq_self]
    intro c hc
    have : c < N - 1 := List.mem_range.mp hc
    simpa using classRows_ne_nil ds c ((hsrc c).mpr this)
  refine ⟨hn, ?_, hcc, ?_⟩
  · simp only [on_epoch_begin, source_centroids, List.length_map, hcc, List.length_range]
  · rw [hcc]
    simp

/-- Witness for the amended C2: classes 0, 1, 2; class 2 (the highest) has no
source sample, classes 0 and 1 have one source sample each. -/
theorem missing_top_class_centroids_witness :
    (∀ c : ℕ, c ∈ ([({ x := 0, sample_domain := 0, y := 0, sample_idx := 0 } : Row ℕ),
          { x := 1, sample_domain := 0, y := 1, sample_idx := 1 },
          { x := 2, sample_domain := -1, y := 2, sample_idx := 2 }].map Row.y) ↔ c < 3)
      ∧ (∀ c : ℕ, c ∈ ((sourceRows
            [({ x := 0, sample_domain := 0, y := 0, sample_idx := 0 } : Row ℕ),
              { x := 1, sample_domain := 0, y := 1, sample_idx := 1 },
              { x := 2, sample_domain := -1, y := 2, sample_idx := 2 }]).map Row.y) ↔ c < 3 - 1)
      ∧ (on_epoch_begin (fun _ : ℕ => [(1 : ℝ)])
          [({ x := 0, sample_domain := 0, y := 0, sample_idx := 0 } : Row ℕ),
            { x := 1, sample_domain := 0, y := 1, sample_idx := 1 },
            { x := 2, sample_domain := -1, y := 2, sample_idx := 2 }]).n_clusters = 3 - 1 := by
  have h1 : ∀ c : ℕ, c ∈ ([({ x := 0, sample_domain := 0, y := 0, sample_idx := 0 } : Row ℕ),
      { x := 1, sample_domain := 0, y := 1, sample_idx := 1 },
      { x := 2, sample_domain := -1, y := 2, sample_idx := 2 }].map Row.y) ↔ c < 3 := by
    intro c
    simp only [List.map_cons, List.map_nil, List.mem_cons, List.not_mem_nil, or_false]
    omega
  have h2 : ∀ c : ℕ, c ∈ ((sourceRows
      [({ x := 0, sample_domain := 0, y := 0, sample_idx := 0 } : Row ℕ),
        { x := 1, sample_domain := 0, y := 1, sample_idx := 1 },
        { x := 2, sample_domain := -1, y := 2, sample_idx := 2 }]).map Row.y) ↔ c < 3 - 1 := by
    intro c
    have : sourceRows [({ x := 0, sample_domain := 0, y := 0, sample_idx := 0 } : Row ℕ),
        { x := 1, sample_domain := 0, y := 1, sample_idx := 1 },
        { x := 2, sample_domain := -1, y := 2, sample_idx := 2 }]
        = [({ x := 0, sample_domain := 0, y := 0, sample_idx := 0 } : Row ℕ),
          { x := 1, sample_domain := 0, y := 1, sample_idx := 1 }] := by decide
    rw [this]
    simp only [List.map_cons, List.map_nil, List.mem_cons, List.not_mem_nil, or_false]
    omega
  exact ⟨h1, h2,
    (missing_top_class_centroids (fun _ : ℕ => [(1 : ℝ)])
      [({ x := 0, sample_domain := 0, y := 0, sample_idx := 0 } : Row ℕ),
        { x := 1, sample_domain := 0, y := 1, sample_idx := 1 },
        { x := 2, sample_domain := -1, y := 2, sample_idx := 2 }] 3 h1 h2).1⟩

/-- A sum of squares is nonnegative. -/
theorem sumSq_nonneg (v : Vec) : 0 ≤ sumSq v := by
  apply List.sum_nonneg
  intro x hx
  obtain ⟨a, _, rfl⟩ := List.mem_map.mp hx
  exact mul_self_nonneg a

/-- The norm vanishes exactly when the sum of squares does. -/
theorem norm2_eq_zero_iff (v : Vec) : norm2 v = 0 ↔ sumSq v = 0 := by
  rw [norm2, Real.sqrt_eq_zero (sumSq_nonneg v)]

/-- Dividing every entry by `s` divides the sum of squares by `s ^ 2`. -/
theorem sumSq_map_div (v : Vec) (s : ℝ) :
    sumSq (v.map (fun a => a / s)) = sumSq v / s ^ 2 := by
  simp only [sumSq, List.map_map]
  have h : ((fun a => a * a) ∘ fun a : ℝ => a / s) = fun a : ℝ => a * a * (s ^ 2)⁻¹ := by
    funext a
    simp only [Function.comp]
    field_simp
    ring
  rw [h, List.sum_map_mul_right, div_eq_mul_inv]

/-- A row of nonzero norm has unit norm after `F.normalize`. -/
theorem norm2_l2normalize (v : Vec) (h : sumSq v ≠ 0) : norm2 (l2normalize v) = 1 := by
  have hn : norm2 v ≠ 0 := fun hz => h ((norm2_eq_zero_iff v).mp hz)
  rw [l2normalize, if_neg hn, norm2, sumSq_map_div]
  have hsq : norm2 v ^ 2 = sumSq v := Real.sq_sqrt (sumSq_nonneg v)
  rw [hsq, div_self h, Real.sqrt_one]

/-- C3 (counterexample to the claim as stated): a class with two source
samples whose features both normalize to `[1]` has centroid `[1] + [1] = [2]`,
of L2 norm 2, not 1 — the code sums the normalized features without rescaling,
so the magnitude grows with the class size. -/
theorem centroid_not_unit_norm :
    (0 : ℕ) ∈ centroidClasses
        [({ x := 0, sample_domain := 0, y := 0, sample_idx := 0 } : Row ℕ),
          { x := 1, sample_domain := 0, y := 0, sample_idx := 1 }]
      ∧ centroidOf (fun _ : ℕ => [(1 : ℝ)])
          [({ x := 0, sample_domain := 0, y := 0, sample_idx := 0 } : Row ℕ),
            { x := 1, sample_domain := 0, y := 0, sample_idx := 1 }] 0 = [(2 : ℝ)]
      ∧ norm2 [(2 : ℝ)] = 2
      ∧ (2 : ℝ) ≠ 1 := by
  have hnorm1 : l2normalize [(1 : ℝ)] = [(1 : ℝ)] := by
    have h1 : sumSq [(1 : ℝ)] = 1 := by norm_num [sumSq]
    have : norm2 [(1 : ℝ)] = 1 := by rw [norm2, h1, Real.sqrt_one]
    rw [l2normalize, if_neg (by rw [this]; norm_num), this]
    norm_num
  refine ⟨by decide, ?_, ?_, by norm_num⟩
  · have hrows : classRows [({ x := 0, sample_domain := 0, y := 0, sample_idx := 0 } : Row ℕ),
        { x := 1, sample_domain := 0, y := 0, sample_idx := 1 }] 0
        = [({ x := 0, sample_domain := 0, y := 0, sample_idx := 0 } : Row ℕ),
          { x := 1, sample_domain := 0, y := 0, sample_idx := 1 }] := by decide
    rw [centroidOf, hrows]
    simp only [List.map_cons, List.map_nil, hnorm1]
    norm_num [vecSum, vecAdd]
  · have h4 : sumSq [(2 : ℝ)] = 4 := by norm_num [sumSq]
    rw [norm2, h4, show (4 : ℝ) = 2 ^ 2 by norm_num, Real.sqrt_sq (by norm_num : (0 : ℝ) ≤ 2)]

/-- C3 (amended): a class whose source rows form a single sample with a
feature vector of nonzero norm has a centroid of unit L2 norm (the centroid is
the normalized feature itself); for larger classes the centroid is the
unrescaled sum of unit vectors and its norm can exceed 1, as the
counterexample shows. -/
theorem singleton_class_centroid_unit_norm (f : α → Vec) (ds : List (Row α))
    (c : ℕ) (r : Row α) (hone : classRows ds c = [r]) (hnz : sumSq (f r.x) ≠ 0) :
    norm2 (centroidOf f ds c) = 1 := by
  rw [centroidOf, hone]
  simp only [List.map_cons, List.map_nil]
  rw [vecSum]
  exact norm2_l2normalize (f r.x) hnz

/-- Witness for the amended C3: one source sample of class 0 with feature `[1]`. -/
theorem singleton_class_centroid_unit_norm_witness :
    classRows [({ x := 0, sample_domain := 0, y := 0, sample_idx := 0 } : Row ℕ)] 0
        = [({ x := 0, sample_domain := 0, y := 0, sample_idx := 0 } : Row ℕ)]
      ∧ sumSq ((fun _ : ℕ => [(1 : ℝ)]) 0) ≠ 0
      ∧ norm2 (centroidOf (fun _ : ℕ => [(1 : ℝ)])
          [({ x := 0, sample_domain := 0, y := 0, sample_idx := 0 } : Row ℕ)] 0) = 1 := by
  have h1 : sumSq ((fun _ : ℕ => [(1 : ℝ)]) 0) ≠ 0 := by norm_num [sumSq]
  exact ⟨by decide, h1,
    singleton_class_centroid_unit_norm (fun _ : ℕ => [(1 : ℝ)])
      [({ x := 0, sample_domain := 0, y := 0, sample_idx := 0 } : Row ℕ)] 0
      { x := 0, sample_domain := 0, y := 0, sample_idx := 0 } (by decide) h1⟩

/-- The two-step filter (source rows, then label) collapses to the spec's
one-step filter over the dataset. -/
theorem classRows_eq_filter (ds : List (Row α)) (c : ℕ) :
    classRows ds c
      = ds.filter (fun r => decide (0 ≤ r.sample_domain) && decide (r.y = c)) := by
  rw [classRows, sourceRows, List.filter_filter]
  congr 1
  funext r
  rw [Bool.and_comm]

/-- A class with a nonempty source row list contributes its label to the
source label list. -/
theorem label_mem_of_classRows_pos (ds : List (Row α)) (c : ℕ)
    (h : 0 < (classRows ds c).length) : c ∈ (sourceRows ds).map Row.y := by
  obtain ⟨r, hr⟩ := List.exists_mem_of_ne_nil _ (List.length_pos.mp h)
  have hm := List.mem_filter.mp hr
  exact List.mem_map.mpr ⟨r, hm.1, by simpa using hm.2⟩

/-- C4: every class centroid computed by the callback equals the sum of the
L2-normalized feature vectors of that class's source samples (the spec-side
`specClassCentroid`); and a training set with 3 source samples of class 0,
2 source samples of class 1, all source labels below 2, and 10 target samples
produces exactly 2 initial centroids and a clusterer invocation with
`n_clusters = 2`. -/
theorem centroid_is_sum_of_normalized (f : α → Vec) (ds ds₂ : List (Row α))
    (h0 : (classRows ds₂ 0).length = 3) (h1 : (classRows ds₂ 1).length = 2)
    (hy : ∀ r ∈ sourceRows ds₂, r.y < 2) (ht : (targetRows ds₂).length = 10) :
    (∀ c : ℕ, centroidOf f ds c = specClassCentroid f ds c)
      ∧ (on_epoch_begin f ds₂).initial_centroids.length = 2
      ∧ (on_epoch_begin f ds₂).n_clusters = 2 := by
  have hmem : ∀ c : ℕ, c ∈ (sourceRows ds₂).map Row.y ↔ c ∈ ({0, 1} : Finset ℕ) := by
    intro c
    constructor
    · intro hc
      obtain ⟨r, hr, rfl⟩ := List.mem_map.mp hc
      have := hy r hr
      simp only [Finset.mem_insert, Finset.mem_singleton]
      omega
    · intro hc
      simp only [Finset.mem_insert, Finset.mem_singleton] at hc
      rcases hc with rfl | rfl
      · exact label_mem_of_classRows_pos ds₂ 0 (by rw [h0]; norm_num)
      · exact label_mem_of_classRows_pos ds₂ 1 (by rw [h1]; norm_num)
  have hn : nClasses ds₂ = 2 := by
    rw [toFinset_source_labels ds₂ {0, 1} hmem]
    decide
  have hcc : centroidClasses ds₂ = [0, 1] := by
    rw [centroidClasses, hn, show List.range 2 = [0, 1] by decide]
    rw [List.filter_eq_self]
    intro a ha
    rcases List.mem_cons.mp ha with rfl | ha2
    · rw [h0]; decide
    · rcases List.mem_cons.mp ha2 with rfl | h3
      · rw [h1]; decide
      · exact absurd h3 (List.not_mem_nil a)
  refine ⟨?_, ?_, hn⟩
  · intro c
    rw [centroidOf, classRows_eq_filter, specClassCentroid]
  · simp only [on_epoch_begin, source_centroids, List.length_map, hcc]
    rfl

/-- Witness for C4: a 15-sample training set — source rows with labels
0, 0, 0, 1, 1 and ten target rows. -/
theorem centroid_is_sum_of_normalized_witness :
    (classRows ([({ x := 0, sample_domain := 0, y := 0, sample_idx := 0 } : Row ℕ),
        { x := 1, sample_domain := 0, y := 0, sample_idx := 1 },
        { x := 2, sample_domain := 0, y := 0, sample_idx := 2 },
        { x := 3, sample_domain := 0, y := 1, sample_idx := 3 },
        { x := 4, sample_domain := 0, y := 1, sample_idx := 4 },
        { x := 5, sample_domain := -1, y := 0, sample_idx := 0 },
        { x := 6, sample_domain := -1, y := 0, sample_idx := 1 },
        { x := 7, sample_domain := -1, y := 0, sample_idx := 2 },
        { x := 8, sample_domain := -1, y := 0, sample_idx := 3 },
        { x := 9, sample_domain := -1, y := 0, sample_idx := 4 },
        { x := 10, sample_domain := -1, y := 0, sample_idx := 5 },
        { x := 11, sample_domain := -1, y := 0, sample_idx := 6 },
        { x := 12, sample_domain := -1, y := 0, sample_idx := 7 },
        { x := 13, sample_domain := -1, y := 0, sample_idx := 8 },
        { x := 14, sample_domain := -1, y := 0, sample_idx := 9 }]) 0).length = 3
      ∧ (on_epoch_begin (fun _ : ℕ => [(1 : ℝ)])
          [({ x := 0, sample_domain := 0, y := 0, sample_idx := 0 } : Row ℕ),
            { x := 1, sample_domain := 0, y := 0, sample_idx := 1 },
            { x := 2, sample_domain := 0, y := 0, sample_idx := 2 },
            { x := 3, sample_domain := 0, y := 1, sample_idx := 3 },
            { x := 4, sample_domain := 0, y := 1, sample_idx := 4 },
            { x := 5, sample_domain := -1, y := 0, sample_idx := 0 },
            { x := 6, sample_domain := -1, y := 0, sample_idx := 1 },
            { x := 7, sample_domain := -1, y := 0, sample_idx := 2 },
            { x := 8, sample_domain := -1, y := 0, sample_idx := 3 },
            { x := 9, sample_domain := -1, y := 0, sample_idx := 4 },
            { x := 10, sample_domain := -1, y := 0, sample_idx := 5 },
            { x := 11, sample_domain := -1, y := 0, sample_idx := 6 },
            { x := 12, sample_domain := -1, y := 0, sample_idx := 7 },
            { x := 13, sample_domain := -1, y := 0, sample_idx := 8 },
            { x := 14, sample_domain := -1, y := 0, sample_idx := 9 }]).n_clusters = 2 :=
  ⟨by decide,
    (centroid_is_sum_of_normalized (fun _ : ℕ => [(1 : ℝ)]) []
      [({ x := 0, sample_domain := 0, y := 0, sample_idx := 0 } : Row ℕ),
        { x := 1, sample_domain := 0, y := 0, sample_idx := 1 },
        { x := 2, sample_domain := 0, y := 0, sample_idx := 2 },
        { x := 3, sample_domain := 0, y := 1, sample_idx := 3 },
        { x := 4, sample_domain := 0, y := 1, sample_idx := 4 },
        { x := 5, sample_domain := -1, y := 0, sample_idx := 0 },
        { x := 6, sample_domain := -1, y := 0, sample_idx := 1 },
        { x := 7, sample_domain := -1, y := 0, sample_idx := 2 },
        { x := 8, sample_domain := -1, y := 0, sample_idx := 3 },
        { x := 9, sample_domain := -1, y := 0, sample_idx := 4 },
        { x := 10, sample_domain := -1, y := 0, sample_idx := 5 },
        { x := 11, sample_domain := -1, y := 0, sample_idx := 6 },
        { x := 12, sample_domain := -1, y := 0, sample_idx := 7 },
        { x := 13, sample_domain := -1, y := 0, sample_idx := 8 },
        { x := 14, sample_domain := -1, y := 0, sample_idx := 9 }]
      (by decide) (by decide) (by decide) (by decide)).2.2⟩

/-! ## Column sums of the squared-softmax renormalization (C5) -/

/-- Entrywise access of an elementwise sum of two sufficiently long rows. -/
theorem getD_vecAdd (u v : Vec) (j : ℕ) (hu : j < u.length) (hv : j < v.length) :
    (vecAdd u v).getD j 0 = u.getD j 0 + v.getD j 0 := by
  simp only [vecAdd, List.getD_eq_getElem?_getD, List.getElem?_zipWith,
    List.getElem?_eq_getElem hu, List.getElem?_eq_getElem hv]
  rfl

/-- A columnwise sum of equally long rows is as long as each row. -/
theorem length_vecSum : ∀ (m : List Vec) (C : ℕ), (∀ r ∈ m, r.length = C) → m ≠ [] →
    (vecSum m).length = C
  | [], _, _, hm => absurd rfl hm
  | [v], _, hl, _ => hl v (List.mem_singleton.mpr rfl)
  | v :: w :: t, C, hl, _ => by
    rw [vecSum, vecAdd, List.length_zipWith]
    rw [hl v (List.mem_cons_self v (w :: t)),
      length_vecSum (w :: t) C (fun r hr => hl r (List.mem_cons_of_mem v hr))
        (List.cons_ne_nil w t)]
    exact Nat.min_self C

/-- Entry `j` of the columnwise sum is the sum of the rows' entries `j`. -/
theorem getD_vecSum : ∀ (m : List Vec) (C j : ℕ), (∀ r ∈ m, r.length = C) → j < C →
    (vecSum m).getD j 0 = (m.map (fun r => r.getD j 0)).sum
  | [], _, _, _, _ => by simp [vecSum]
  | [v], _, _, _, _ => by simp [vecSum]
  | v :: w :: t, C, j, hl, hj => by
    have htail : ∀ r ∈ w :: t, r.length = C := fun r hr => hl r (List.mem_cons_of_mem v hr)
    rw [vecSum, List.map_cons, List.sum_cons,
      getD_vecAdd v (vecSum (w :: t)) j (by rw [hl v (List.mem_cons_self v (w :: t))]; exact hj)
        (by rw [length_vecSum (w :: t) C htail (List.cons_ne_nil w t)]; exact hj),
      getD_vecSum (w :: t) C j htail hj]

/-- The softmax of a row has the same length as the row. -/
theorem length_softmaxRow (z : Vec) : (softmaxRow z).length = z.length := by
  simp [softmaxRow]

/-- Every entry of the softmax of a nonempty row is positive. -/
theorem softmaxRow_pos (z : Vec) (hz : z ≠ []) : ∀ a ∈ softmaxRow z, 0 < a := by
  intro a ha
  obtain ⟨x, _, rfl⟩ := List.mem_map.mp ha
  have hsum : 0 < (z.map Real.exp).sum := by
    apply List.sum_pos
    · intro y hy
      obtain ⟨u, _, rfl⟩ := List.mem_map.mp hy
      exact Real.exp_pos u
    · simpa using hz
  exact div_pos (Real.exp_pos x) hsum

/-- C5: for every nonempty batch of target rows whose logits all have `C`
class entries, every class column `j < C` of `outputs_target` — the squared
softmax renormalized by the columnwise (batch-dimension) sums — sums to 1. -/
theorem outputs_target_colsum_one (outF : α → Vec) (b : List (Row α)) (C j : ℕ)
    (hne : batchTarget b ≠ []) (hlen : ∀ r ∈ batchTarget b, (outF r.x).length = C)
    (hj : j < C) :
    ((outputs_target outF b).map (fun row => row.getD j 0)).sum = 1 := by
  have hC : 0 < C := Nat.lt_of_le_of_lt (Nat.zero_le j) hj
  have hSlen : ∀ r ∈ softmax_out outF b, r.length = C := by
    intro r hr
    obtain ⟨s, hs, rfl⟩ := List.mem_map.mp hr
    rw [length_softmaxRow]
    exact hlen s hs
  have hSpos : ∀ r ∈ softmax_out outF b, ∀ a ∈ r, 0 < a := by
    intro r hr
    obtain ⟨s, hs, rfl⟩ := List.mem_map.mp hr
    apply softmaxRow_pos
    intro hnil
    have hlen0 := hlen s hs
    rw [hnil] at hlen0
    simp only [List.length_nil] at hlen0
    omega
  have hQlen : ∀ r ∈ sqRows (softmax_out outF b), r.length = C := by
    intro r hr
    obtain ⟨s, hs, rfl⟩ := List.mem_map.mp hr
    rw [List.length_map]
    exact hSlen s hs
  have hQpos : ∀ r ∈ sqRows (softmax_out outF b), ∀ a ∈ r, 0 < a := by
    intro r hr
    obtain ⟨s, hs, rfl⟩ := List.mem_map.mp hr
    intro a ha
    obtain ⟨u, hu, rfl⟩ := List.mem_map.mp ha
    exact mul_pos (hSpos s hs u hu) (hSpos s hs u hu)
  have hQne : sqRows (softmax_out outF b) ≠ [] := by
    simp only [sqRows, softmax_out, ne_eq, List.map_eq_nil_iff]
    exact hne
  have hDlen : (vecSum (sqRows (softmax_out outF b))).length = C :=
    length_vecSum _ C hQlen hQne
  have hDj : (vecSum (sqRows (softmax_out outF b))).getD j 0
      = ((sqRows (softmax_out outF b)).map (fun r => r.getD j 0)).sum :=
    getD_vecSum _ C j hQlen hj
  have hgetD_pos : ∀ r ∈ sqRows (softmax_out outF b), 0 < r.getD j 0 := by
    intro r hr
    have hjr : j < r.length := by rw [hQlen r hr]; exact hj
    rw [List.getD_eq_getElem?_getD, List.getElem?_eq_getElem hjr]
    exact hQpos r hr _ (List.getElem_mem hjr)
  have hDpos : 0 < (vecSum (sqRows (softmax_out outF b))).getD j 0 := by
    rw [hDj]
    apply List.sum_pos
    · intro x hx
      obtain ⟨r, hr, rfl⟩ := List.mem_map.mp hx
      exact hgetD_pos r hr
    · simpa using hQne
  have hcol : (outputs_target outF b).map (fun row => row.getD j 0)
      = (sqRows (softmax_out outF b)).map
          (fun row => row.getD j 0 * ((vecSum (sqRows (softmax_out outF b))).getD j 0)⁻¹) := by
    rw [outputs_target, List.map_map]
    apply List.map_congr_left
    intro r hr
    have hjr : j < r.length := by rw [hQlen r hr]; exact hj
    have hjD : j < (vecSum (sqRows (softmax_out outF b))).length := by rw [hDlen]; exact hj
    simp only [Function.comp, List.getD_eq_getElem?_getD, List.getElem?_zipWith,
      List.getElem?_eq_getElem hjr, List.getElem?_eq_getElem hjD]
    rw [div_eq_mul_inv]
    rfl
  rw [hcol, List.sum_map_mul_right, ← hDj, mul_inv_cancel₀ (ne_of_gt hDpos)]

/-- Witness for C5: one target row with a single-class logit row `[0]`. -/
theorem outputs_target_colsum_one_witness :
    batchTarget [({ x := 0, sample_domain := -1, y := 0, sample_idx := 0 } : Row ℕ)] ≠ []
      ∧ (∀ r ∈ batchTarget [({ x := 0, sample_domain := -1, y := 0, sample_idx := 0 } : Row ℕ)],
          ((fun _ : ℕ => [(0 : ℝ)]) r.x).length = 1)
      ∧ ((outputs_target (fun _ : ℕ => [(0 : ℝ)])
          [({ x := 0, sample_domain := -1, y := 0, sample_idx := 0 } : Row ℕ)]).map
            (fun row => row.getD 0 0)).sum = 1 :=
  ⟨by decide, by decide,
    outputs_target_colsum_one (fun _ : ℕ => [(0 : ℝ)])
      [({ x := 0, sample_domain := -1, y := 0, sample_idx := 0 } : Row ℕ)] 1 0
      (by decide) (by decide) (by decide)⟩

end Skada
